import Mathlib

/- Shallow embedding of the paraDime repository (src/paradime/dr.py and
src/paradime/loss.py).  Python dicts are modelled as insertion-ordered
association lists, Python exceptions as an explicit error type, and
tensors, arrays and loss values by exactly the aspects the verified
claims depend on.  Line numbers in the doc comments refer to the two
source files. -/

/-- Python exceptions raised by the embedded code.  The natural-language
specification maps ValueError and TypeError to its InvalidInput kind and
KeyError and AttributeError to its MissingData kind. -/
inductive PyErr where
  | typeErr : PyErr
  | valueErr : String → PyErr
  | keyErr : String → PyErr
  | attrErr : String → PyErr
  | notTrainedErr : PyErr
  | noDatasetRegisteredErr : PyErr
  | relationsNotComputedErr : PyErr
  | lossNotDeterminedErr : PyErr
  deriving DecidableEq

/-- Python dict assignment d[k] = v on an insertion-ordered association
list: an existing key keeps its position and gets the new value, a new
key is appended at the end. -/
def dictInsert {α : Type} : List (String × α) → String → α → List (String × α)
  | [], k, v => [(k, v)]
  | (k0, v0) :: rest, k, v =>
      if k0 = k then (k0, v) :: rest else (k0, v0) :: dictInsert rest k v

/-- Python dict lookup d[k] as an Option. -/
def dictLookup {α : Type} : List (String × α) → String → Option α
  | [], _ => none
  | (k0, v0) :: rest, k => if k0 = k then some v0 else dictLookup rest k

/- ## Claim C1: the loss interaction of run_training_phase -/

/-- Parameter list (excluding self) of Loss.forward in loss.py lines
22-29; every override in loss.py (RelationLoss lines 44-49,
ClassificationLoss lines 74-79, PositionLoss lines 99-104,
ReconstructionLoss lines 123-128, CompoundLoss lines 155-160) declares
the same four parameters, with no defaults and no varargs. -/
def lossForwardParams : List String :=
  ["model", "hd_relations", "ld_relations", "batch"]

/-- No class in loss.py defines a checkpoint method or a history
attribute. -/
def lossHasCheckpoint : Bool := false

/-- Number of positional arguments with which run_training_phase
(dr.py lines 1015-1021) invokes training_phase.loss: the model, the
global relation-data mapping, the batch-relations mapping, the batch,
and the device. -/
def runTrainingPhaseLossArgc : Nat := 5

/-- Calling a Python function whose parameters have no defaults and no
varargs with a different number of positional arguments raises
TypeError. -/
def callPositional (params : List String) (argc : Nat) : Except PyErr Unit :=
  if argc = params.length then .ok () else .error .typeErr

/-- One epoch body of run_training_phase (dr.py lines 1008-1026)
restricted to its interaction with the loss object: each batch invokes
the loss with five positional arguments, and the epoch ends with
loss.checkpoint(), which on an object without that attribute raises
AttributeError. -/
def epochLossInteraction : Except PyErr Unit := do
  callPositional lossForwardParams runTrainingPhaseLossArgc
  if lossHasCheckpoint then .ok () else .error (.attrErr "checkpoint")

/- ## Claim C2: _losses_from_spec versus the loss constructors -/

/-- The four loss registry entries of _losses_from_spec
(dr.py lines 1145-1150). -/
inductive LossType where
  | relation : LossType
  | classification : LossType
  | reconstruction : LossType
  | position : LossType
  deriving DecidableEq

/-- Keyword parameters accepted by each Loss subtype constructor in
loss.py (RelationLoss lines 36-42, ClassificationLoss lines 65-72,
ReconstructionLoss lines 115-121, PositionLoss lines 90-97), excluding
self. -/
def acceptedCtorKwargs : LossType → List String
  | .relation => ["loss_function", "name"]
  | .classification => ["label_key", "loss_function", "name"]
  | .reconstruction => ["loss_function", "name"]
  | .position => ["position_key", "loss_function", "name"]

/-- Keyword arguments passed by _losses_from_spec (dr.py lines
1161-1189) to the constructor selected by the losstype of the entry. -/
def passedCtorKwargs : LossType → List String
  | .relation =>
      ["loss_function", "global_relation_key", "batch_relation_key",
       "embedding_method"]
  | .classification =>
      ["loss_function", "data_key", "label_key", "classification_method"]
  | .reconstruction =>
      ["loss_function", "data_key", "encoding_method", "decoding_method"]
  | .position =>
      ["loss_function", "data_key", "position_key", "embedding_method"]

/-- Calling a Python constructor with a keyword argument outside its
parameter list raises TypeError. -/
def lossCtorCall (t : LossType) : Except PyErr Unit :=
  if (passedCtorKwargs t).all (fun k => (acceptedCtorKwargs t).contains k)
  then .ok () else .error .typeErr

/-- Keys of the comparison-function registry loss_func_dict of
_losses_from_spec (dr.py lines 1152-1157). -/
def lossFuncKeys : List String :=
  ["mse", "kl div", "cross entropy", "umap cross entropy"]

/-- One entry of the losses spec list, restricted to the fields that
determine control flow of _losses_from_spec. -/
structure LossSpecEntry where
  name : String
  losstype : LossType
  func : String

/-- Loop of _losses_from_spec (dr.py lines 1161-1189): per entry, the
comparison function is looked up in loss_func_dict (KeyError when
missing), then the selected constructor is called with the keyword
arguments of passedCtorKwargs; on success the result would be stored
under the name of the entry. -/
def lossesFromSpecAux :
    List (String × Unit) → List LossSpecEntry →
      Except PyErr (List (String × Unit))
  | acc, [] => .ok acc
  | acc, e :: rest =>
      if lossFuncKeys.contains e.func then
        match lossCtorCall e.losstype with
        | .error er => .error er
        | .ok v => lossesFromSpecAux (dictInsert acc e.name v) rest
      else .error (.keyErr e.func)

/-- dr.py lines 1143-1191: _losses_from_spec. -/
def losses_from_spec (spec : List LossSpecEntry) :
    Except PyErr (List (String × Unit)) :=
  lossesFromSpecAux [] spec

/- ## Claim C3: CompoundLoss as a weighted sum -/

/-- The four positional arguments of a loss forward call in loss.py,
as opaque tokens. -/
structure LossArgs where
  model : Nat
  hdRelations : Nat
  ldRelations : Nat
  batch : Nat

/-- A constructed CompoundLoss: child losses (as evaluation functions of
the four forward arguments) and the resolved weights. -/
structure CompoundLossV where
  losses : List (LossArgs → ℚ)
  weights : List ℚ

/-- loss.py lines 139-153: CompoundLoss.__init__.  A weights value of
None becomes torch.ones(len(losses)); an explicit weights sequence of a
different length than losses raises ValueError. -/
def CompoundLoss_init (losses : List (LossArgs → ℚ)) :
    Option (List ℚ) → Except PyErr CompoundLossV
  | none => .ok ⟨losses, List.replicate losses.length 1⟩
  | some ws =>
      if ws.length ≠ losses.length then
        .error (.valueErr "Size mismatch between losses and weights.")
      else .ok ⟨losses, ws⟩

/-- loss.py lines 155-167: CompoundLoss.forward accumulates
total_loss += w * l(...) over zip(losses, weights) starting from 0. -/
def CompoundLossV.forward (c : CompoundLossV) (a : LossArgs) : ℚ :=
  (c.losses.zip c.weights).foldl (fun acc lw => acc + lw.2 * lw.1 a) 0

/- ## Claim C4: _collate_edge_batch -/

/-- Fields of one NegSampledEdgeDataset item relevant to edge-batch
collation (dr.py lines 172-206): the per-item indices (already
deduplicated and sorted by np.unique inside NegSampledEdgeDataset),
row, col and rel.  The remaining per-item fields (from_to_data and the
collated raw-dataset columns) are outside the scope of claim C4. -/
structure EdgeBatchItem where
  indices : List Int
  row : List Int
  col : List Int
  rel : List ℚ
  deriving DecidableEq

/-- np.unique on a one-dimensional integer array: the distinct values in
ascending order. -/
def npUnique (l : List Int) : List Int :=
  List.insertionSort (· ≤ ·) l.dedup

/-- dr.py lines 209-229: _collate_edge_batch.  The indices field is the
np.unique of the concatenated per-item indices; row, col and rel are
plain concatenations. -/
def collate_edge_batch (rawBatch : List EdgeBatchItem) : EdgeBatchItem :=
  { indices := npUnique ((rawBatch.map (·.indices)).flatten)
    row := (rawBatch.map (·.row)).flatten
    col := (rawBatch.map (·.col)).flatten
    rel := (rawBatch.map (·.rel)).flatten }

/-- Deduplication keeping the first occurrence of each value, in order
of first occurrence across the whole list: the ordering claim C4 makes
about the collated indices. -/
def dedupFirstAux : List Int → List Int → List Int
  | [], _ => []
  | x :: xs, seen =>
      if seen.contains x then dedupFirstAux xs seen
      else x :: dedupFirstAux xs (x :: seen)

/-- First-occurrence-order deduplication of a list. -/
def dedupFirst (l : List Int) : List Int := dedupFirstAux l []

/-- A concrete NegSampledEdgeDataset item with negative sampling rate 1:
rows twice index 2, true neighbor 3 and random column 2, hence
participating indices np.unique of concatenated rows and cols = [2, 3]. -/
def edgeItemA : EdgeBatchItem := ⟨[2, 3], [2, 2], [3, 2], [1, 0]⟩

/-- A concrete NegSampledEdgeDataset item with negative sampling rate 1:
rows twice index 1, both columns 1, hence participating indices [1]. -/
def edgeItemB : EdgeBatchItem := ⟨[1], [1, 1], [1, 1], [1, 0]⟩

/- ## Claim C5: compute_derived_data -/

/-- dr.py lines 26-63: a DerivedDatasetEntry, abstracted to the
requires_relations flag and the value its func computes from the current
dataset columns (the type-key tuples and keyword options that feed func
do not affect which entries are materialized or cleared). -/
structure DerivedEntry where
  requiresRelations : Bool
  func : List (String × Int) → Int

/-- The slice of ParametricDR state that compute_derived_data touches:
the dataset columns, the pending derived-entry definitions of the
dataset (insertion ordered) and the _global_relations_computed flag.
Dataset column values are abstracted to opaque integers. -/
structure DerivedState where
  data : List (String × Int)
  derived : List (String × DerivedEntry)
  relationsComputed : Bool

/-- Loop of compute_derived_data (dr.py lines 854-883).  Python iterates
the items() view of the dict object that self.dataset._derived_entries
held when the loop started; the statement
self.dataset._derived_entries = ... inside the loop rebinds the attribute
to a new empty dict and does not affect the ongoing iteration, so the
loop ranges over a snapshot of the definitions.  Each iteration
materializes one entry via add_to_dataset (a dict column assignment) and
then, when keep_definitions is false, rebinds the definitions mapping of
the dataset to empty. -/
def computeDerivedGo (keep : Bool) :
    List (String × DerivedEntry) → DerivedState → Except PyErr DerivedState
  | [], st => .ok st
  | (k, e) :: rest, st =>
      if e.requiresRelations && !st.relationsComputed then
        .error .relationsNotComputedErr
      else
        computeDerivedGo keep rest
          { st with
            data := dictInsert st.data k (e.func st.data)
            derived := if keep then st.derived else [] }

/-- dr.py lines 838-883: ParametricDR.compute_derived_data on an
instance with a registered dataset (the NoDatasetRegistered guard at
lines 849-852 is outside the scope of claim C5). -/
def compute_derived_data (keep : Bool) (st : DerivedState) :
    Except PyErr DerivedState :=
  computeDerivedGo keep st.derived st

/-- A derived entry that needs no relations and computes the value 10. -/
def derivedEntryP : DerivedEntry := ⟨false, fun _ => 10⟩

/-- A derived entry that needs no relations and computes the value 20. -/
def derivedEntryQ : DerivedEntry := ⟨false, fun _ => 20⟩

/-- A state holding two pending derived-entry definitions p and q. -/
def derivedStateTwo : DerivedState :=
  ⟨[("data", 0)], [("p", derivedEntryP), ("q", derivedEntryQ)], false⟩

/-- The two-entry state again, with global relations computed, used to
instantiate the amended claim. -/
def derivedStateTwoRC : DerivedState :=
  ⟨[("data", 0)], [("p", derivedEntryP), ("q", derivedEntryQ)], true⟩

/- ## Claim C6: _dataset_from_spec -/

/-- One entry of the dataset spec list (dr.py lines 1080-1089): either a
raw data entry (the entry has a "data" key) or a derived entry built
from the registered data func named by its "data func" key; the payloads
are abstracted to the information stored in the dict. -/
inductive DataSpecEntry where
  | raw : Int → DataSpecEntry
  | derivedFunc : String → DataSpecEntry
  deriving DecidableEq

/-- The value _dataset_from_spec stores in the dataset dict for one
entry: the raw array, or the constructed DerivedDatasetEntry. -/
inductive DatasetDictVal where
  | rawVal : Int → DatasetDictVal
  | derivedVal : String → DatasetDictVal
  deriving DecidableEq

/-- The dict value produced from one spec entry. -/
def interpSpecEntry : DataSpecEntry → DatasetDictVal
  | .raw v => .rawVal v
  | .derivedFunc f => .derivedVal f

/-- dr.py lines 1072-1090: the dict that _dataset_from_spec builds and
then passes to the Dataset constructor.  Both branches of the loop
assign to the literal key "name". -/
def dataset_from_spec_dict (spec : List DataSpecEntry) :
    List (String × DatasetDictVal) :=
  spec.foldl (fun d e => dictInsert d "name" (interpSpecEntry e)) []

/- ## Claims C7 and C10: TrainingPhase and _determine_loss -/

/-- Loss objects as immutable values; copy.deepcopy in dr.py produces an
independent object with the same value, which under value semantics is
the value itself. -/
inductive LossObj where
  | atom : Nat → LossObj
  | compound : Option String → List LossObj → List ℚ → LossObj

/-- The fields of a TrainingPhase (dr.py lines 281-326) that claims C7
and C10 read.  lossWeightsAttr models the presence and value of the
loss_weights attribute: none means the attribute was never assigned, so
reading it raises AttributeError.  The sampling, optimizer, epoch and
reporting fields do not interact with these claims and their validation
raises before the loss_weights branch only for an empty loss_keys
list. -/
structure TrainingPhaseV where
  name : Option String
  lossKeys : List String
  lossWeightsAttr : Option (List ℚ)
  lossAttr : Option LossObj

/-- dr.py lines 281-326: TrainingPhase.__init__ restricted to name,
loss_keys and loss_weights.  An empty loss_keys raises ValueError
(lines 308-309); self.loss_weights is assigned only when the
loss_weights argument is None (lines 313-314, list(np.ones(n))); there
is no else branch, so an explicit argument leaves the attribute
unassigned and its value unused. -/
def TrainingPhase_init (name : Option String) (lossKeys : List String)
    (lossWeights : Option (List ℚ)) : Except PyErr TrainingPhaseV :=
  if lossKeys = [] then
    .error (.valueErr "Training phase requires at least one loss key")
  else
    .ok { name := name
          lossKeys := lossKeys
          lossWeightsAttr :=
            match lossWeights with
            | none => some (List.replicate lossKeys.length 1)
            | some _ => none
          lossAttr := none }

/-- loss.py lines 139-153: CompoundLoss.__init__ at the level of LossObj
values, with the name argument of the constructor. -/
def CompoundLoss_ofList (name : Option String) (children : List LossObj) :
    Option (List ℚ) → Except PyErr LossObj
  | none => .ok (.compound name children (List.replicate children.length 1))
  | some ws =>
      if ws.length ≠ children.length then
        .error (.valueErr "Size mismatch between losses and weights.")
      else .ok (.compound name children ws)

/-- The multi-key loop of _determine_loss (dr.py lines 348-353): losses
are collected in key order, raising KeyError at the first key missing
from loss_dict. -/
def collectLosses (lossDict : List (String × LossObj)) :
    List String → Except PyErr (List LossObj)
  | [] => .ok []
  | k :: ks =>
      match dictLookup lossDict k with
      | none => .error (.keyErr ("Invalid loss key " ++ k ++ "."))
      | some l =>
          match collectLosses lossDict ks with
          | .error er => .error er
          | .ok ls => .ok (l :: ls)

/-- dr.py lines 341-358: TrainingPhase._determine_loss.  A single key
binds a copy of the mapped loss; several keys collect copies of the
mapped losses and combine them into a CompoundLoss built with
weights=self.loss_weights (an AttributeError when that attribute was
never assigned) and name=self.name. -/
def determine_loss (tp : TrainingPhaseV)
    (lossDict : List (String × LossObj)) : Except PyErr TrainingPhaseV :=
  match tp.lossKeys with
  | [lk] =>
      match dictLookup lossDict lk with
      | none => .error (.keyErr ("Invalid loss key " ++ lk ++ "."))
      | some l => .ok { tp with lossAttr := some l }
  | keys =>
      match collectLosses lossDict keys with
      | .error er => .error er
      | .ok ls =>
          match tp.lossWeightsAttr with
          | none => .error (.attrErr "loss_weights")
          | some ws =>
              match CompoundLoss_ofList tp.name ls (some ws) with
              | .error er => .error er
              | .ok c => .ok { tp with lossAttr := some c }

/- ## Claim C8: the NotTrained gate of apply -/

/-- Device of a tensor. -/
inductive PyDevice where
  | cpu : PyDevice
  | cuda : PyDevice
  deriving DecidableEq

/-- A tensor abstracted to an opaque value and its device. -/
structure PyTensor where
  val : Int
  device : PyDevice
  deriving DecidableEq

/-- The model of a ParametricDR instance: its callable behaviour, the
device its outputs live on, and the method names it has. -/
structure ModelV where
  call : Int → Int
  outDevice : PyDevice
  methods : List String

/-- The slice of ParametricDR state read by apply: the model, the
trained flag and the use_cuda flag. -/
structure ApplyState where
  model : ModelV
  trained : Bool
  useCuda : Bool

/-- dr.py lines 565-589: ParametricDR._call_model_method_by_name.
to_torch is the identity on tensors; X.cuda() moves the input to the
accelerator; a missing attribute raises AttributeError; model methods
are callables, so the callable check passes whenever the attribute
exists; the trained flag gates the actual call with NotTrainedError. -/
def call_model_method_by_name (st : ApplyState) (methodName : String)
    (X : PyTensor) : Except PyErr PyTensor :=
  let X1 := if st.useCuda then { X with device := PyDevice.cuda } else X
  if !(st.model.methods.contains methodName) then
    .error (.attrErr methodName)
  else if st.trained then
    .ok { val := st.model.call X1.val, device := st.model.outDevice }
  else .error .notTrainedErr

/-- dr.py lines 591-612: ParametricDR.apply dispatches to __call__ when
no method name is given and moves the result to the CPU via .cpu(). -/
def paradime_apply (st : ApplyState) (X : PyTensor)
    (method : Option String) : Except PyErr PyTensor :=
  match call_model_method_by_name st (method.getD "__call__") X with
  | .error er => .error er
  | .ok t => .ok { t with device := PyDevice.cpu }

/-- dr.py lines 992-1035 restricted to the trained flag: each epoch body
of run_training_phase ends with self.trained = True (line 1035), so the
flag is set once at least one epoch body runs to completion; in
particular, whenever train() returns after completing at least one
batch, the epoch containing that batch completed and the flag is set.
The loss evaluation and optimizer steps of the loop do not touch the
fields modelled here. -/
def run_training_phase_trained : Nat → ApplyState → ApplyState
  | 0, st => st
  | n + 1, st => run_training_phase_trained n { st with trained := true }

/-- A concrete untrained state whose model increments its input and puts
outputs on the accelerator. -/
def applyStateC8 : ApplyState :=
  ⟨⟨fun v => v + 1, PyDevice.cuda, ["__call__", "embed"]⟩, false, false⟩

/-- A concrete input tensor. -/
def tensorC8 : PyTensor := ⟨3, PyDevice.cpu⟩

/- ## Claim C9: compute_global_relations -/

/-- The slice of ParametricDR state used by compute_global_relations:
the registration and computation flags, the named global relation
definitions (abstracted to opaque numbers), the computed relation-data
mapping, and an instrumentation log recording the key of every
rel.compute_relations invocation in order. -/
structure GlobalRelState where
  datasetRegistered : Bool
  relationsComputed : Bool
  globalRelations : List (String × Nat)
  globalRelationData : List (String × Nat)
  computeLog : List String

/-- Relation computation abstracted to a pure function of the relation
definition. -/
def relCompute (rel : Nat) : Nat := rel

/-- dr.py lines 885-912: ParametricDR.compute_global_relations.  Without
a registered dataset it raises NoDatasetRegisteredError; the per-key
loop runs when force is set or relations were never computed, writing
rel.compute_relations(...) into global_relation_data for every key; the
computed flag is set afterwards in every case. -/
def compute_global_relations (force : Bool) (st : GlobalRelState) :
    Except PyErr GlobalRelState :=
  if !st.datasetRegistered then .error .noDatasetRegisteredErr
  else
    let st1 :=
      if force || !st.relationsComputed then
        { st with
          globalRelationData :=
            st.globalRelations.foldl
              (fun d kr => dictInsert d kr.1 (relCompute kr.2))
              st.globalRelationData
          computeLog := st.computeLog ++ st.globalRelations.map Prod.fst }
      else st
    .ok { st1 with relationsComputed := true }

/-- A concrete state with a registered dataset, two global relation
definitions and nothing computed yet. -/
def globalRelStateC9 : GlobalRelState :=
  ⟨true, false, [("r1", 5), ("r2", 7)], [], []⟩

/- ## Helper lemmas -/

/-- Lookup after a dict assignment. -/
theorem dictLookup_dictInsert {α : Type} (d : List (String × α))
    (k k' : String) (v : α) :
    dictLookup (dictInsert d k v) k' =
      if k = k' then some v else dictLookup d k' := by
  induction d with
  | nil => simp [dictInsert, dictLookup]
  | cons hd tl ih =>
      obtain ⟨k0, v0⟩ := hd
      by_cases h0 : k0 = k
      · subst h0
        by_cases h1 : k0 = k'
        · subst h1; simp [dictInsert, dictLookup]
        · simp [dictInsert, dictLookup, h1]
      · by_cases h1 : k0 = k'
        · subst h1
          have hne : ¬ k = k0 := fun h => h0 h.symm
          simp [dictInsert, dictLookup, h0, hne]
        · simp [dictInsert, dictLookup, h0, h1, ih]

/-- Dict assignment never removes a key. -/
theorem dictLookup_isSome_dictInsert {α : Type} (d : List (String × α))
    (k k' : String) (v : α) (h : (dictLookup d k').isSome) :
    (dictLookup (dictInsert d k v) k').isSome := by
  rw [dictLookup_dictInsert]
  by_cases hk : k = k'
  · simp [hk]
  · simpa [hk]

/-- Every loss constructor call made by _losses_from_spec passes a
keyword argument that the constructor does not accept, hence raises
TypeError. -/
theorem lossCtorCall_err (t : LossType) : lossCtorCall t = .error .typeErr := by
  cases t <;> rfl

/-- A nonempty losses spec list always makes lossesFromSpecAux fail. -/
theorem lossesFromSpecAux_cons_err (acc : List (String × Unit))
    (e : LossSpecEntry) (rest : List LossSpecEntry) :
    ∃ er, lossesFromSpecAux acc (e :: rest) = .error er := by
  unfold lossesFromSpecAux
  by_cases hf : lossFuncKeys.contains e.func
  · rw [if_pos hf, lossCtorCall_err e.losstype]
    exact ⟨.typeErr, rfl⟩
  · rw [if_neg hf]
    exact ⟨.keyErr e.func, rfl⟩

/-- Shifting the initial accumulator out of an additive foldl. -/
theorem foldl_add_shift {β : Type} (g : β → ℚ) (l : List β) :
    ∀ c : ℚ, l.foldl (fun acc p => acc + g p) c
      = c + l.foldl (fun acc p => acc + g p) 0 := by
  induction l with
  | nil => intro c; simp
  | cons x xs ih =>
      intro c
      simp only [List.foldl_cons]
      rw [ih (c + g x), ih (0 + g x)]
      ring

/-- The accumulation loop of CompoundLoss.forward equals the
mathematical weighted sum over the child index range. -/
theorem zip_foldl_eq_weighted_sum (a : LossArgs) :
    ∀ (L : List (LossArgs → ℚ)) (W : List ℚ), W.length = L.length →
      (L.zip W).foldl (fun acc lw => acc + lw.2 * lw.1 a) 0 =
        ∑ i ∈ Finset.range L.length,
          W.getD i 0 * (L.getD i (fun _ => 0)) a := by
  intro L
  induction L with
  | nil => intro W h; simp
  | cons f L2 ih =>
      intro W h
      cases W with
      | nil => simp at h
      | cons w W2 =>
          have h2 : W2.length = L2.length := by
            simpa using h
          simp only [List.zip_cons_cons, List.foldl_cons]
          rw [foldl_add_shift (fun lw => lw.2 * lw.1 a) (L2.zip W2),
            ih W2 h2]
          rw [List.length_cons, Finset.sum_range_succ']
          simp only [List.getD_cons_succ, List.getD_cons_zero]
          ring

/- ## Claim theorems -/

/-- C1 (code evidence for the divergence): run_training_phase invokes
the phase loss with five positional arguments and then calls
loss.checkpoint(), but every Loss class of loss.py declares forward with
exactly the four parameters (model, hd_relations, ld_relations, batch)
and defines no checkpoint or history member, so the epoch body raises
TypeError instead of obtaining a scalar, and the checkpoint step would
raise AttributeError: the loss objects of loss.py are not five-argument
callables carrying a checkpoint/history mechanism. -/
theorem C1_loss_call_arity_mismatch :
    epochLossInteraction = .error .typeErr ∧
    runTrainingPhaseLossArgc ≠ lossForwardParams.length ∧
    lossHasCheckpoint = false :=
  ⟨rfl, by decide, rfl⟩

/-- C2: every entry of the losses spec list with losstype relation,
classification, reconstruction or position makes _losses_from_spec call
the selected Loss constructor with at least one keyword argument the
constructor does not accept, so construction raises TypeError for every
such entry, and _losses_from_spec returns normally exactly on the empty
spec list. -/
theorem C2_losses_from_spec_always_raises :
    (∀ t : LossType, ∃ k, k ∈ passedCtorKwargs t ∧ k ∉ acceptedCtorKwargs t) ∧
    (∀ t : LossType, lossCtorCall t = .error .typeErr) ∧
    (∀ spec : List LossSpecEntry,
      (∃ v, losses_from_spec spec = .ok v) ↔ spec = []) := by
  refine ⟨?_, lossCtorCall_err, ?_⟩
  · intro t
    cases t
    · exact ⟨"global_relation_key", by decide, by decide⟩
    · exact ⟨"data_key", by decide, by decide⟩
    · exact ⟨"data_key", by decide, by decide⟩
    · exact ⟨"data_key", by decide, by decide⟩
  · intro spec
    constructor
    · rintro ⟨v, hv⟩
      cases spec with
      | nil => rfl
      | cons e rest =>
          obtain ⟨er, her⟩ := lossesFromSpecAux_cons_err [] e rest
          rw [losses_from_spec, her] at hv
          exact absurd hv (by simp)
    · rintro rfl
      exact ⟨[], rfl⟩

/-- C2 witness: the relation-loss constructor call fails with TypeError
and the empty spec list returns normally. -/
theorem C2_witness :
    lossCtorCall LossType.relation = .error .typeErr ∧
    ∃ v, losses_from_spec [] = .ok v :=
  ⟨C2_losses_from_spec_always_raises.2.1 LossType.relation,
    (C2_losses_from_spec_always_raises.2.2 []).mpr rfl⟩

/-- C3: a CompoundLoss built from k child losses and a weights sequence
of length k evaluates on any forward arguments to the sum over i of
weights[i] times the output of child i on the same arguments;
construction with a non-None weights sequence of another length fails
with ValueError (the InvalidInput kind of the specification), and
omitting the weights yields weights all equal to one. -/
theorem C3_compound_loss_weighted_sum :
    (∀ (losses : List (LossArgs → ℚ)) (ws : List ℚ) (a : LossArgs),
        ws.length = losses.length →
        ∃ c, CompoundLoss_init losses (some ws) = .ok c ∧
          c.forward a =
            ∑ i ∈ Finset.range losses.length,
              ws.getD i 0 * (losses.getD i (fun _ => 0)) a) ∧
    (∀ (losses : List (LossArgs → ℚ)) (ws : List ℚ),
        ws.length ≠ losses.length →
        CompoundLoss_init losses (some ws) =
          .error (.valueErr "Size mismatch between losses and weights.")) ∧
    (∀ losses : List (LossArgs → ℚ),
        ∃ c, CompoundLoss_init losses none = .ok c ∧
          c.weights = List.replicate losses.length 1) := by
  refine ⟨?_, ?_, ?_⟩
  · intro losses ws a h
    refine ⟨⟨losses, ws⟩, ?_, ?_⟩
    · simp [CompoundLoss_init, h]
    · exact zip_foldl_eq_weighted_sum a losses ws h
  · intro losses ws h
    simp [CompoundLoss_init, h]
  · intro losses
    exact ⟨⟨losses, List.replicate losses.length 1⟩, rfl, rfl⟩

/-- C3 witness: the weighted-sum equation at two concrete child losses
with weights 5 and 7, the length-mismatch failure at one loss against
two weights, and the default all-ones weights for two losses. -/
theorem C3_witness :
    (∃ c, CompoundLoss_init [fun _ => (2 : ℚ), fun _ => 3] (some [5, 7]) =
        .ok c ∧
      c.forward ⟨0, 0, 0, 0⟩ =
        ∑ i ∈ Finset.range 2,
          ([5, 7] : List ℚ).getD i 0 *
            (([fun _ => (2 : ℚ), fun _ => 3] : List (LossArgs → ℚ)).getD i
              (fun _ => 0)) ⟨0, 0, 0, 0⟩) ∧
    CompoundLoss_init [fun _ => (2 : ℚ)] (some [5, 7]) =
      .error (.valueErr "Size mismatch between losses and weights.") ∧
    (∃ c, CompoundLoss_init [fun _ => (2 : ℚ), fun _ => 3] none = .ok c ∧
      c.weights = List.replicate 2 1) :=
  ⟨C3_compound_loss_weighted_sum.1 _ _ _ rfl,
    C3_compound_loss_weighted_sum.2.1 _ _ (by decide),
    C3_compound_loss_weighted_sum.2.2 _⟩

/-- Length of a flattened list of lists of constant length. -/
theorem flatten_length_const {α : Type} (n : Nat) :
    ∀ L : List (List α), (∀ l ∈ L, l.length = n) →
      L.flatten.length = L.length * n := by
  intro L
  induction L with
  | nil => intro _; simp
  | cons l L2 ih =>
      intro h
      have hl : l.length = n := h l (by simp)
      have hrest : ∀ l2 ∈ L2, l2.length = n := fun l2 hm => h l2 (by simp [hm])
      simp only [List.flatten_cons, List.length_append, List.length_cons,
        ih hrest, hl, Nat.succ_mul]
      ring

/-- C4 counterexample: for the concrete two-item batch
[edgeItemA, edgeItemB] the collated indices field is [1, 2, 3]
(np.unique sorts), not the first-occurrence-order deduplication
[2, 3, 1] of the concatenated per-item indices, so the collated indices
do not preserve first-occurrence order as the claim states. -/
theorem C4_counterexample_sorted_not_first_occurrence :
    (collate_edge_batch [edgeItemA, edgeItemB]).indices = [1, 2, 3] ∧
    dedupFirst (([edgeItemA, edgeItemB].map (·.indices)).flatten) =
      [2, 3, 1] ∧
    (collate_edge_batch [edgeItemA, edgeItemB]).indices ≠
      dedupFirst (([edgeItemA, edgeItemB].map (·.indices)).flatten) := by
  refine ⟨?_, by decide, ?_⟩ <;> decide

/-- C4 (amended): collating b per-item outputs of a NegSampledEdgeDataset
with negative-sampling rate r yields row, col and rel fields of length
b*(r+1), and an indices field with no repeated value that is sorted in
ascending order (the sorted deduplication of the concatenated per-item
indices), rather than in first-occurrence order. -/
theorem C4_collate_lengths_and_sorted_indices :
    ∀ (rawBatch : List EdgeBatchItem) (r : Nat),
      (∀ it ∈ rawBatch, it.row.length = r + 1 ∧ it.col.length = r + 1 ∧
        it.rel.length = r + 1) →
      (collate_edge_batch rawBatch).row.length = rawBatch.length * (r + 1) ∧
      (collate_edge_batch rawBatch).col.length = rawBatch.length * (r + 1) ∧
      (collate_edge_batch rawBatch).rel.length = rawBatch.length * (r + 1) ∧
      (collate_edge_batch rawBatch).indices.Nodup ∧
      (collate_edge_batch rawBatch).indices.Sorted (· ≤ ·) := by
  intro rawBatch r h
  refine ⟨?_, ?_, ?_, ?_, ?_⟩
  · rw [collate_edge_batch,
      flatten_length_const (r + 1) _
        (by intro l hl; obtain ⟨it, hit, rfl⟩ := List.mem_map.mp hl
            exact (h it hit).1)]
    simp
  · rw [collate_edge_batch,
      flatten_length_const (r + 1) _
        (by intro l hl; obtain ⟨it, hit, rfl⟩ := List.mem_map.mp hl
            exact (h it hit).2.1)]
    simp
  · rw [collate_edge_batch,
      flatten_length_const (r + 1) _
        (by intro l hl; obtain ⟨it, hit, rfl⟩ := List.mem_map.mp hl
            exact (h it hit).2.2)]
    simp
  · exact (List.perm_insertionSort _ _).nodup_iff.mpr (List.nodup_dedup _)
  · exact List.sorted_insertionSort _ _

/-- C4 witness: the amended claim at the concrete two-item batch with
negative-sampling rate 1. -/
theorem C4_witness :
    (collate_edge_batch [edgeItemA, edgeItemB]).row.length = 2 * (1 + 1) ∧
    (collate_edge_batch [edgeItemA, edgeItemB]).col.length = 2 * (1 + 1) ∧
    (collate_edge_batch [edgeItemA, edgeItemB]).rel.length = 2 * (1 + 1) ∧
    (collate_edge_batch [edgeItemA, edgeItemB]).indices.Nodup ∧
    (collate_edge_batch [edgeItemA, edgeItemB]).indices.Sorted (· ≤ ·) :=
  C4_collate_lengths_and_sorted_indices [edgeItemA, edgeItemB] 1 (by decide)

/-- The loop of compute_derived_data materializes every entry of the
snapshot it iterates, clears the definitions when keep_definitions is
false, and preserves existing dataset columns and the computed flag. -/
theorem computeDerivedGo_materializes_all :
    ∀ (l : List (String × DerivedEntry)) (st : DerivedState),
      st.relationsComputed = true →
      ∃ st1, computeDerivedGo false l st = .ok st1 ∧
        st1.relationsComputed = true ∧
        st1.derived = (if l.isEmpty then st.derived else []) ∧
        (∀ k, (dictLookup st.data k).isSome →
          (dictLookup st1.data k).isSome) ∧
        (∀ k ∈ l.map Prod.fst, (dictLookup st1.data k).isSome) := by
  intro l
  induction l with
  | nil =>
      intro st h
      exact ⟨st, rfl, h, by simp, fun _ hk => hk, by simp⟩
  | cons p rest ih =>
      intro st h
      obtain ⟨k, e⟩ := p
      have hcond : (e.requiresRelations && !st.relationsComputed) = false := by
        rw [h]; simp
      obtain ⟨st1, h1, h2, h3, h4, h5⟩ :=
        ih { st with
              data := dictInsert st.data k (e.func st.data)
              derived := [] } h
      refine ⟨st1, ?_, h2, ?_, ?_, ?_⟩
      · rw [computeDerivedGo, hcond]
        simpa using h1
      · rcases rest with _ | ⟨q, rest2⟩ <;> simpa using h3
      · intro k2 hk2
        exact h4 k2 (dictLookup_isSome_dictInsert _ _ _ _ hk2)
      · intro k2 hk2
        rcases List.mem_cons.mp hk2 with hk2 | hk2
        · subst hk2
          refine h4 k2 ?_
          rw [dictLookup_dictInsert]
          simp
        · exact h5 k2 hk2

/-- C5 counterexample: on the concrete state with two pending derived
entries p and q and keep_definitions false, compute_derived_data
materializes both entries as dataset columns in the single call (the
rebinding of the definitions mapping inside the loop does not stop the
iteration, which ranges over the original mapping), so the second entry
q is computed too, contrary to the claim that only the first entry in
iteration order is guaranteed to be materialized. -/
theorem C5_counterexample_second_entry_materialized :
    compute_derived_data false derivedStateTwo =
      .ok ⟨[("data", 0), ("p", 10), ("q", 20)], [], false⟩ ∧
    dictLookup [("data", (0 : Int)), ("p", 10), ("q", 20)] "q" = some 20 :=
  ⟨rfl, rfl⟩

/-- C5 (amended): when compute_derived_data runs with keep_definitions
false on a dataset with pending derived entries (and global relations
already computed, so no entry raises), the clearing statement inside the
per-entry loop empties the definitions mapping after the first entry,
but the loop iterates a snapshot of the original mapping, so every
derived entry is materialized as a dataset column in that single call,
and the definitions are empty afterwards. -/
theorem C5_all_derived_entries_materialized :
    ∀ st : DerivedState, st.relationsComputed = true →
      ∃ st1, compute_derived_data false st = .ok st1 ∧
        st1.derived = [] ∧
        ∀ k ∈ st.derived.map Prod.fst, (dictLookup st1.data k).isSome := by
  intro st h
  obtain ⟨st1, h1, _, h3, _, h5⟩ :=
    computeDerivedGo_materializes_all st.derived st h
  refine ⟨st1, h1, ?_, h5⟩
  rcases hd : st.derived with _ | ⟨p, rest⟩
  · rw [hd] at h3; simpa [hd] using h3
  · rw [hd] at h3; simpa using h3

/-- C5 witness: the amended claim at the concrete two-entry state with
relations computed. -/
theorem C5_witness :
    ∃ st1, compute_derived_data false derivedStateTwoRC = .ok st1 ∧
      st1.derived = [] ∧
      ∀ k ∈ derivedStateTwoRC.derived.map Prod.fst,
        (dictLookup st1.data k).isSome :=
  C5_all_derived_entries_materialized derivedStateTwoRC rfl

/-- Folding further dataset spec entries onto a dict that already holds
a single "name" key keeps a single "name" key holding the last entry. -/
theorem dataset_from_spec_fold_last :
    ∀ (t : List DataSpecEntry) (w : DatasetDictVal), t ≠ [] →
      ∃ last, t.getLast? = some last ∧
        t.foldl (fun d e => dictInsert d "name" (interpSpecEntry e))
            [("name", w)] =
          [("name", interpSpecEntry last)] := by
  intro t
  induction t with
  | nil => intro w h; exact absurd rfl h
  | cons e rest ih =>
      intro w _
      have hstep :
          dictInsert [("name", w)] "name" (interpSpecEntry e) =
            [("name", interpSpecEntry e)] := by
        simp [dictInsert]
      rcases rest with _ | ⟨e2, rest2⟩
      · exact ⟨e, rfl, by simp [hstep]⟩
      · obtain ⟨last, hl, hf⟩ := ih (interpSpecEntry e) (by simp)
        refine ⟨last, ?_, ?_⟩
        · rw [List.getLast?_cons_cons]
          exact hl
        · simp only [List.foldl_cons] at hf ⊢
          rw [hstep]
          simpa using hf

/-- C6: for every non-empty dataset spec list, _dataset_from_spec writes
each entry (raw or derived) into the dataset dict under the literal key
"name", so the dict passed to the Dataset constructor holds exactly one
key, "name", carrying the value of the last entry of the list. -/
theorem C6_dataset_spec_single_name_key :
    ∀ spec : List DataSpecEntry, spec ≠ [] →
      ∃ last, spec.getLast? = some last ∧
        dataset_from_spec_dict spec = [("name", interpSpecEntry last)] := by
  intro spec h
  cases spec with
  | nil => exact absurd rfl h
  | cons e rest =>
      have hstep :
          dictInsert ([] : List (String × DatasetDictVal)) "name"
              (interpSpecEntry e) =
            [("name", interpSpecEntry e)] := rfl
      rcases rest with _ | ⟨e2, rest2⟩
      · exact ⟨e, rfl, by simp [dataset_from_spec_dict, hstep]⟩
      · obtain ⟨last, hl, hf⟩ :=
          dataset_from_spec_fold_last (e2 :: rest2) (interpSpecEntry e)
            (by simp)
        refine ⟨last, ?_, ?_⟩
        · rw [List.getLast?_cons_cons]
          exact hl
        · rw [dataset_from_spec_dict]
          simp only [List.foldl_cons, hstep]
          simpa using hf

/-- C6 witness: the dict built from a two-entry spec list (one raw entry
followed by one derived entry) holds only the derived entry under
"name". -/
theorem C6_witness :
    ∃ last,
      ([DataSpecEntry.raw 1, DataSpecEntry.derivedFunc "pca"].getLast? =
        some last) ∧
      dataset_from_spec_dict
          [DataSpecEntry.raw 1, DataSpecEntry.derivedFunc "pca"] =
        [("name", interpSpecEntry last)] :=
  C6_dataset_spec_single_name_key
    [DataSpecEntry.raw 1, DataSpecEntry.derivedFunc "pca"] (by decide)

/-- C7: a TrainingPhase with loss_keys = ["a", "b"] (and default
loss_weights) bound via _determine_loss against a loss mapping holding
only the key "a" fails with KeyError (the MissingData kind of the
specification); bound against a mapping holding both keys, the phase
loss becomes a CompoundLoss named after the phase whose two children are
the copies of the mapped losses, weighted by the default ones. -/
theorem C7_determine_loss_two_keys :
    ∃ tp, TrainingPhase_init (some "phase") ["a", "b"] none = .ok tp ∧
      determine_loss tp [("a", LossObj.atom 0)] =
        .error (.keyErr "Invalid loss key b.") ∧
      ∀ la lb : LossObj,
        determine_loss tp [("a", la), ("b", lb)] =
          .ok { tp with
                lossAttr := some (.compound (some "phase") [la, lb] [1, 1]) } := by
  refine ⟨⟨some "phase", ["a", "b"], some [1, 1], none⟩, rfl, rfl, ?_⟩
  intro la lb
  rfl

/-- C7 witness: binding against a concrete mapping holding both keys. -/
theorem C7_witness :
    ∃ tp, TrainingPhase_init (some "phase") ["a", "b"] none = .ok tp ∧
      determine_loss tp [("a", LossObj.atom 5), ("b", LossObj.atom 6)] =
        .ok { tp with
              lossAttr := some (.compound (some "phase")
                [LossObj.atom 5, LossObj.atom 6] [1, 1]) } := by
  obtain ⟨tp, h1, _, h3⟩ := C7_determine_loss_two_keys
  exact ⟨tp, h1, h3 (LossObj.atom 5) (LossObj.atom 6)⟩

/-- Running training epochs changes only the trained flag. -/
theorem run_training_phase_trained_fields :
    ∀ (n : Nat) (st : ApplyState),
      (run_training_phase_trained n st).model = st.model ∧
      (run_training_phase_trained n st).useCuda = st.useCuda := by
  intro n
  induction n with
  | zero => intro st; exact ⟨rfl, rfl⟩
  | succ m ih =>
      intro st
      exact ih { st with trained := true }

/-- After at least one completed epoch the trained flag is set. -/
theorem run_training_phase_trained_flag :
    ∀ (n : Nat) (st : ApplyState), 0 < n →
      (run_training_phase_trained n st).trained = true := by
  intro n
  induction n with
  | zero => intro st h; exact absurd h (by simp)
  | succ m ih =>
      intro st _
      cases m with
      | zero => rfl
      | succ m2 =>
          exact ih { st with trained := true } (Nat.succ_pos m2)

/-- C8: on any instance whose model has a __call__ method (every
nn.Module does), apply before any training phase has run fails with
NotTrainedError whatever the input is; after run_training_phase has
completed at least one epoch body (which is the case whenever train()
returns having completed at least one batch, since the trained flag is
set at the end of each epoch body), apply succeeds and the result is a
CPU-resident tensor. -/
theorem C8_apply_not_trained_gate :
    ∀ (st : ApplyState) (X : PyTensor),
      st.model.methods.contains "__call__" = true →
      (st.trained = false →
        paradime_apply st X none = .error .notTrainedErr) ∧
      ∀ n, 0 < n →
        paradime_apply (run_training_phase_trained n st) X none =
          .ok { val := st.model.call X.val, device := PyDevice.cpu } := by
  intro st X hm
  constructor
  · intro ht
    rw [paradime_apply]
    rw [show (none : Option String).getD "__call__" = "__call__" from rfl]
    rw [call_model_method_by_name, hm, ht]
    simp
  · intro n hn
    obtain ⟨hmodel, _⟩ := run_training_phase_trained_fields n st
    have ht := run_training_phase_trained_flag n st hn
    rw [paradime_apply]
    rw [show (none : Option String).getD "__call__" = "__call__" from rfl]
    rw [call_model_method_by_name, hmodel, hm, ht]
    have hval :
        (if (run_training_phase_trained n st).useCuda then
            { X with device := PyDevice.cuda } else X).val = X.val := by
      split <;> rfl
    simp [hval]

/-- C8 witness: on the concrete untrained state, apply fails with
NotTrainedError; after two epochs it returns the model output moved to
the CPU. -/
theorem C8_witness :
    paradime_apply applyStateC8 tensorC8 none = .error .notTrainedErr ∧
    paradime_apply (run_training_phase_trained 2 applyStateC8) tensorC8
        none =
      .ok { val := 4, device := PyDevice.cpu } :=
  ⟨(C8_apply_not_trained_gate applyStateC8 tensorC8 rfl).1 rfl,
    (C8_apply_not_trained_gate applyStateC8 tensorC8 rfl).2 2 (by decide)⟩

/-- C9: with a registered dataset and relations not yet computed,
compute_global_relations() computes each named global relation exactly
once (the compute log afterwards lists every relation key once, in
order); a second call without force is a no-op returning the unchanged
state; a call with force recomputes every relation (each key appears a
second time in the log). -/
theorem C9_global_relations_computed_once :
    ∀ st : GlobalRelState,
      st.datasetRegistered = true → st.relationsComputed = false →
      st.computeLog = [] →
      ∃ st1, compute_global_relations false st = .ok st1 ∧
        st1.computeLog = st.globalRelations.map Prod.fst ∧
        compute_global_relations false st1 = .ok st1 ∧
        ∃ st2, compute_global_relations true st1 = .ok st2 ∧
          st2.computeLog =
            st.globalRelations.map Prod.fst ++
              st.globalRelations.map Prod.fst := by
  intro st h1 h2 h3
  refine ⟨{ st with
            globalRelationData :=
              st.globalRelations.foldl
                (fun d kr => dictInsert d kr.1 (relCompute kr.2))
                st.globalRelationData
            computeLog := st.computeLog ++ st.globalRelations.map Prod.fst
            relationsComputed := true }, ?_, ?_, ?_, ?_⟩
  · rw [compute_global_relations, h1, h2]
    rfl
  · rw [h3]
    simp
  · rw [compute_global_relations]
    simp [h1]
  · refine ⟨{ st with
        relationsComputed := true
        globalRelationData :=
          st.globalRelations.foldl
            (fun d kr => dictInsert d kr.1 (relCompute kr.2))
            (st.globalRelations.foldl
              (fun d kr => dictInsert d kr.1 (relCompute kr.2))
              st.globalRelationData)
        computeLog :=
          (st.computeLog ++ st.globalRelations.map Prod.fst) ++
            st.globalRelations.map Prod.fst }, ?_, ?_⟩
    · rw [compute_global_relations]
      simp [h1]
    · rw [h3]
      simp

/-- C9 witness: the concrete state with two global relations. -/
theorem C9_witness :
    ∃ st1, compute_global_relations false globalRelStateC9 = .ok st1 ∧
      st1.computeLog = globalRelStateC9.globalRelations.map Prod.fst ∧
      compute_global_relations false st1 = .ok st1 ∧
      ∃ st2, compute_global_relations true st1 = .ok st2 ∧
        st2.computeLog =
          globalRelStateC9.globalRelations.map Prod.fst ++
            globalRelStateC9.globalRelations.map Prod.fst :=
  C9_global_relations_computed_once globalRelStateC9 rfl rfl rfl

/-- When every declared key is present in the loss mapping, the
collection loop of _determine_loss succeeds. -/
theorem collectLosses_ok_of_all_present (lossDict : List (String × LossObj)) :
    ∀ ks : List String, (∀ k ∈ ks, (dictLookup lossDict k).isSome) →
      ∃ ls, collectLosses lossDict ks = .ok ls := by
  intro ks
  induction ks with
  | nil => intro _; exact ⟨[], rfl⟩
  | cons k ks2 ih =>
      intro h
      obtain ⟨l, hl⟩ :=
        Option.isSome_iff_exists.mp (h k (by simp))
      obtain ⟨ls, hls⟩ := ih (fun k2 hk2 => h k2 (by simp [hk2]))
      refine ⟨l :: ls, ?_⟩
      rw [collectLosses, hl, hls]

/-- C10: constructing a TrainingPhase with an explicit non-None
loss_weights argument succeeds but never assigns the loss_weights
attribute (only the None branch assigns it), so the supplied weights are
never used (the constructed phase does not depend on them), and a
subsequent _determine_loss with more than one bound loss key reaches the
read of self.loss_weights and fails with AttributeError. -/
theorem C10_loss_weights_never_assigned :
    ∀ (name : Option String) (keys : List String) (ws : List ℚ),
      keys ≠ [] →
      ∃ tp, TrainingPhase_init name keys (some ws) = .ok tp ∧
        tp.lossWeightsAttr = none ∧
        (∀ ws2 : List ℚ,
          TrainingPhase_init name keys (some ws) =
            TrainingPhase_init name keys (some ws2)) ∧
        ∀ (lossDict : List (String × LossObj)) (k1 k2 : String)
            (rest : List String),
          keys = k1 :: k2 :: rest →
          (∀ k ∈ keys, (dictLookup lossDict k).isSome) →
          determine_loss tp lossDict = .error (.attrErr "loss_weights") := by
  intro name keys ws hk
  refine ⟨{ name := name, lossKeys := keys, lossWeightsAttr := none,
            lossAttr := none }, ?_, rfl, ?_, ?_⟩
  · rw [TrainingPhase_init, if_neg hk]
  · intro ws2
    rfl
  · intro lossDict k1 k2 rest hkeys hall
    obtain ⟨ls, hls⟩ := collectLosses_ok_of_all_present lossDict keys hall
    subst hkeys
    rw [determine_loss]
    simp only
    rw [hls]

/-- C10 witness: a phase built with explicit weights [2, 3] equals the
phase built with explicit weights [9] (the supplied weights are unused),
its loss_weights attribute is unassigned, and binding two present keys
fails with AttributeError. -/
theorem C10_witness :
    ∃ tp, TrainingPhase_init (some "w") ["a", "b"] (some [2, 3]) = .ok tp ∧
      tp.lossWeightsAttr = none ∧
      (∀ ws2 : List ℚ,
        TrainingPhase_init (some "w") ["a", "b"] (some [2, 3]) =
          TrainingPhase_init (some "w") ["a", "b"] (some ws2)) ∧
      ∀ (lossDict : List (String × LossObj)) (k1 k2 : String)
          (rest : List String),
        (["a", "b"] : List String) = k1 :: k2 :: rest →
        (∀ k ∈ (["a", "b"] : List String), (dictLookup lossDict k).isSome) →
        determine_loss tp lossDict = .error (.attrErr "loss_weights") :=
  C10_loss_weights_never_assigned (some "w") ["a", "b"] [2, 3] (by decide)
